import Mathlib

/-!
Verification of the availability / time-slot subsystem of the SkillSetu
repository (`src/lib/availability.ts`), shallowly embedded in Lean 4.

Modelling conventions:
* JavaScript `Date` values are instants, modelled as `Int` milliseconds
  since the Unix epoch; the host's local timezone is modelled as UTC, so
  `getHours`/`getMinutes`/`getDay` are computed from the epoch offset
  directly (epoch day 0, 1970-01-01, is a Thursday, weekday index 4).
* JavaScript `Number` results that may be `NaN` are modelled as
  `Option Nat` (`none` = `NaN`); the inputs the program feeds to
  `Number(...)` are digit strings, and that is the fragment modelled.
* Prisma queries are modelled as `List.find?` over in-memory tables with
  the same `where` predicates (`gte`/`lte`/`lt` become `≤`/`<`; `lte` on
  text columns is lexicographic code-unit comparison, `strLe`).
-/

namespace SkillSetu

/-! ## Time utilities (`availability.ts`, TIME UTILITIES section) -/

/-- JavaScript `s.split(sep)` on a list of characters. -/
def splitOnChar (sep : Char) : List Char → List (List Char)
  | [] => [[]]
  | c :: rest =>
    match splitOnChar sep rest with
    | [] => if c = sep then [[], []] else [[c]]
    | h :: t => if c = sep then [] :: h :: t else (c :: h) :: t

/-- JavaScript `Number(str)` restricted to the fragment the program uses:
a non-empty all-digit string parses to its decimal value, anything else
is `NaN` (`none`).  (Signs, fractions, exponents and whitespace never
reach `Number` in the modelled code paths.) -/
def jsNumber (l : List Char) : Option Nat :=
  if l ≠ [] ∧ l.all Char.isDigit then
    some (l.foldl (fun acc c => acc * 10 + (c.toNat - 48)) 0)
  else
    none

/-- `Number` applied to an element of a destructured array: a missing
element is `undefined`, and `Number(undefined)` is `NaN`. -/
def jsNumberOfPart : Option (List Char) → Option Nat
  | none => none
  | some l => jsNumber l

/-- `timeToMinutes(time)`: `time.split(':')`, destructure into
`[hours, minutes]`, return `hours * 60 + minutes`.  `NaN` (from a
non-numeric part or a missing part) propagates through the arithmetic,
so the result is `Option Nat` with `none` = `NaN`. -/
def timeToMinutes (time : String) : Option Nat :=
  let parts := splitOnChar ':' time.data
  match jsNumberOfPart (parts.get? 0), jsNumberOfPart (parts.get? 1) with
  | some hours, some minutes => some (hours * 60 + minutes)
  | _, _ => none

/-- JavaScript `s.padStart(2, '0')`. -/
def padStart2 (s : String) : String :=
  if 2 ≤ s.length then s else ⟨List.replicate (2 - s.length) '0' ++ s.data⟩

/-- `minutesToTime(minutes)`: `Math.floor(minutes / 60)` and
`minutes % 60`, each rendered and padded to two characters.  (The
program only applies it to non-negative minute counts, so the argument
is `Nat`.) -/
def minutesToTime (minutes : Nat) : String :=
  padStart2 (toString (minutes / 60)) ++ ":" ++ padStart2 (toString (minutes % 60))

/-- Lexicographic (code-unit) order on character lists: the comparison
a database/JS applies to "HH:MM" strings. -/
def charListLe : List Char → List Char → Bool
  | [], _ => true
  | _ :: _, [] => false
  | a :: as, b :: bs => a.toNat < b.toNat || (a == b && charListLe as bs)

/-- Lexicographic `≤` on strings (Prisma's `lte`/`gte` on text
columns). -/
def strLe (a b : String) : Bool := charListLe a.data b.data

/-- `timeRangesOverlap(start1, end1, start2, end2)`:
`start1 < end2 && start2 < end1`.  Instants are epoch milliseconds. -/
def timeRangesOverlap (start1 end1 start2 end2 : Int) : Bool :=
  start1 < end2 && start2 < end1

/-- A string is a well-formed "HH:MM" time: five characters
`H H : M M`, all digits, hour ≤ 23, minute ≤ 59. -/
def isValidHHMM (s : String) : Bool :=
  match s.data with
  | [h1, h2, c, m1, m2] =>
    h1.isDigit && h2.isDigit && c = ':' && m1.isDigit && m2.isDigit &&
      (h1.toNat - 48) * 10 + (h2.toNat - 48) ≤ 23 &&
      (m1.toNat - 48) * 10 + (m2.toNat - 48) ≤ 59
  | _ => false

/-! ## JavaScript `Date` accessors (timezone modelled as UTC) -/

def msPerMinute : Int := 60000
def msPerHour : Int := 3600000
def msPerDay : Int := 86400000

/-- `date.getHours()`: hour of day, in `[0, 23]`. -/
def getHours (t : Int) : Int := (t.fdiv msPerHour) % 24

/-- `date.getMinutes()`: minute of hour, in `[0, 59]`. -/
def getMinutes (t : Int) : Int := (t.fdiv msPerMinute) % 60

/-- `date.getDay()`: day of week, 0 = Sunday.  Epoch day 0 is a
Thursday. -/
def getDay (t : Int) : Int := (t.fdiv msPerDay + 4) % 7

/-- `date.setHours(0,0,0,0)`: local midnight of the instant's day. -/
def startOfDay (t : Int) : Int := t.fdiv msPerDay * msPerDay

/-- Render an `Int` in `[0, 99]` the way the source builds "HH:MM"
pieces: `toString` then `padStart(2, '0')`. -/
def pad2Int (n : Int) : String := padStart2 (toString n)

/-- The `"HH:MM"` string the conflict checker builds from an instant:
`getHours` and `getMinutes`, each padded to two digits, joined by ":". -/
def hhmmOfInstant (t : Int) : String :=
  pad2Int (getHours t) ++ ":" ++ pad2Int (getMinutes t)

/-! ## Store data model (Prisma tables read by the availability core) -/

inductive LessonStatus
  | PENDING | CONFIRMED | COMPLETED | CANCELLED | EXPIRED
deriving DecidableEq, Repr

structure Lesson where
  teacherId : String
  scheduledAt : Int
  duration : Int
  status : LessonStatus
deriving DecidableEq, Repr

structure BlockedTime where
  userId : String
  startTime : Int
  endTime : Int
  reason : Option String
deriving DecidableEq, Repr

structure Availability where
  userId : String
  dayOfWeek : Int
  startTime : String
  endTime : String
  isAvailable : Bool
deriving DecidableEq, Repr

structure BookingSettings where
  userId : String
  bufferMinutes : Int
  minAdvanceHours : Int
  maxAdvanceDays : Int
  allowedDurations : List Int
deriving DecidableEq, Repr

/-- The read snapshot of the store the core queries through Prisma. -/
structure DB where
  lessons : List Lesson
  blockedTimes : List BlockedTime
  availabilities : List Availability
  bookingSettings : List BookingSettings
deriving Repr

/-- `prisma.bookingSettings.findUnique({ where: { userId } })`. -/
def findUniqueSettings (db : DB) (userId : String) : Option BookingSettings :=
  db.bookingSettings.find? (fun s => s.userId == userId)

/-- Result record of `isTeacherAvailable`. -/
structure AvailResult where
  available : Bool
  reason : Option String
deriving DecidableEq, Repr

/-- JavaScript `x || dflt` for a nullable string: `null` and the empty
string are falsy. -/
def jsOrString (x : Option String) (dflt : String) : String :=
  match x with
  | some s => if s = "" then dflt else s
  | none => dflt

/-! ## Conflict checker: `isTeacherAvailable` -/

/-- `isTeacherAvailable(teacherId, startTime, endTime)`: the four checks
in source order.  `now` is the instant `new Date()` reads in step 4.
Step 1's Prisma `where` is exactly the source's: a PENDING/CONFIRMED
lesson of the teacher with `scheduledAt` in `[startTime, endTime)`
(`gte`/`lt`) — the lesson's own end is not consulted.  Fractional JS
divisions in step 4 are modelled by exact, order-equivalent integer
comparisons (see the inline comment). -/
def isTeacherAvailable (db : DB) (now : Int) (teacherId : String)
    (startTime endTime : Int) : AvailResult :=
  -- 1. existing bookings
  match db.lessons.find? (fun l =>
      l.teacherId == teacherId &&
      (l.status == .PENDING || l.status == .CONFIRMED) &&
      startTime ≤ l.scheduledAt && l.scheduledAt < endTime) with
  | some _ => ⟨false, some "Teacher has another lesson at this time"⟩
  | none =>
  -- 2. blocked times
  match db.blockedTimes.find? (fun b =>
      b.userId == teacherId && b.startTime ≤ startTime && endTime ≤ b.endTime) with
  | some b => ⟨false, some (jsOrString b.reason "Teacher is unavailable at this time")⟩
  | none =>
  -- 3. weekly availability
  let dayOfWeek := getDay startTime
  let startTimeStr := hhmmOfInstant startTime
  let endTimeStr := hhmmOfInstant endTime
  match db.availabilities.find? (fun a =>
      a.userId == teacherId && a.dayOfWeek == dayOfWeek && a.isAvailable &&
      strLe a.startTime startTimeStr && strLe endTimeStr a.endTime) with
  | none => ⟨false, some "Outside teacher's regular availability"⟩
  | some _ =>
  -- 4. booking settings (advance notice)
  match findUniqueSettings db teacherId with
  | some settings =>
    -- The source compares the fractional `hoursUntilLesson =
    -- (startTime - now) / 3600000` with `minAdvanceHours`, and
    -- `daysUntilLesson = hoursUntilLesson / 24` with `maxAdvanceDays`.
    -- Division by a positive constant preserves order, so both
    -- comparisons are modelled by their exact integer forms.
    let msUntilLesson := startTime - now
    if msUntilLesson < settings.minAdvanceHours * msPerHour then
      ⟨false, some ("Need at least " ++ toString settings.minAdvanceHours
        ++ " hours advance notice")⟩
    else
      if settings.maxAdvanceDays * msPerDay < msUntilLesson then
        ⟨false, some ("Can only book up to " ++ toString settings.maxAdvanceDays
          ++ " days in advance")⟩
      else ⟨true, none⟩
  | none => ⟨true, none⟩

/-! ## Booking validator: `validateBooking` -/

/-- The fixed business-hours sanity check of `validateBooking` step 4:
`hour < 6 || hour > 23` on `startTime.getHours()`. -/
def hourCheckErrors (startTime : Int) : List String :=
  if getHours startTime < 6 || 23 < getHours startTime then
    ["Please select a time between 6 AM and 11 PM"]
  else []

/-- `validateBooking(teacherId, startTime, duration)`: accumulates the
errors of the four checks in source order and returns
`{ valid: errors.length === 0, errors }`. -/
def validateBooking (db : DB) (now : Int) (teacherId : String)
    (startTime : Int) (duration : Int) : Bool × List String :=
  let endTime := startTime + duration * msPerMinute
  let e1 := if startTime < now then ["Cannot book lessons in the past"] else []
  let r := isTeacherAvailable db now teacherId startTime endTime
  let e2 := if r.available then []
    else [jsOrString r.reason "Teacher not available"]
  let e3 := match findUniqueSettings db teacherId with
    | some settings =>
      if settings.allowedDurations.contains duration then []
      else ["Duration must be one of: "
        ++ String.intercalate ", " (settings.allowedDurations.map toString)
        ++ " minutes"]
    | none => []
  let errors := e1 ++ e2 ++ e3 ++ hourCheckErrors startTime
  (errors.isEmpty, errors)

/-! ## Slot generator: `generateTimeSlots` -/

/-- An emitted slot record: `{ startTime, endTime, available }` — the
source's element type carries exactly these three fields. -/
structure Slot where
  startTime : Int
  endTime : Int
  available : Bool
deriving DecidableEq, Repr

/-- JavaScript `x || dflt` for a nullable number: `null` and `0` are
falsy. -/
def jsOrNumber (x : Option Int) (dflt : Int) : Int :=
  match x with
  | some n => if n = 0 then dflt else n
  | none => dflt

/-- `settings?.bufferMinutes || 15` as computed in `generateTimeSlots`. -/
def effectiveBuffer (db : DB) (teacherId : String) : Int :=
  jsOrNumber ((findUniqueSettings db teacherId).map (·.bufferMinutes)) 15

/-- The inner `for` loop of `generateTimeSlots` for one day:
`for (minutes = startMinutes; minutes + duration <= endMinutes;
minutes += slotInterval)`, emitting a slot (with the conflict checker’s
`available` flag) unless `slotStart < now`.  `dayStart` is the day’s
local midnight; `slotStart = dayStart + minutes` minutes (the source’s
`setHours(⌊minutes/60⌋, minutes%60)` including its hour roll-over).
The loop is embedded structurally with a fuel argument bounding the
iteration count; `daySlots` below instantiates the fuel so that it
never runs out for any positive `slotInterval`. -/
def daySlotsF (db : DB) (teacherId : String)
    (now duration slotInterval dayStart endMinutes : Int) :
    Nat → Int → List Slot
  | 0, _ => []
  | fuel + 1, minutes =>
    if minutes + duration ≤ endMinutes then
      let slotStart := dayStart + minutes * msPerMinute
      let slotEnd := slotStart + duration * msPerMinute
      let rest := daySlotsF db teacherId now duration slotInterval dayStart
        endMinutes fuel (minutes + slotInterval)
      if slotStart < now then rest
      else
        ⟨slotStart, slotEnd,
          (isTeacherAvailable db now teacherId slotStart slotEnd).available⟩ :: rest
    else []

/-- One day’s slots.  When `0 < slotInterval`, `minutes` strictly
increases every iteration while the loop runs only for
`minutes ≤ endMinutes - duration`, so the source loop performs at most
`(endMinutes - duration - minutes) + 1` iterations and the fuel below
is never exhausted; when `slotInterval ≤ 0` the source loop would
never terminate (no claim exercises that case). -/
def daySlots (db : DB) (teacherId : String) (now duration slotInterval
    dayStart : Int) (minutes endMinutes : Int) : List Slot :=
  daySlotsF db teacherId now duration slotInterval dayStart endMinutes
    ((endMinutes - duration - minutes).toNat + 1) minutes

/-- The body of the outer day loop: find the availability record for
the day’s weekday, parse its time strings, and run the inner loop.  A
day with no matching record contributes no slots, and on `NaN` parse
results the inner loop condition is false at once (zero iterations). -/
def slotsForDay (db : DB) (teacherId : String) (now : Int)
    (availabilities : List Availability) (duration slotInterval : Int)
    (currentDate : Int) : List Slot :=
  match availabilities.find? (fun a => a.dayOfWeek == getDay currentDate) with
  | some a =>
    match timeToMinutes a.startTime, timeToMinutes a.endTime with
    | some sm, some em =>
      daySlots db teacherId now duration slotInterval currentDate sm em
    | _, _ => []
  | none => []

/-- The outer `while (currentDate <= endDate)` loop of
`generateTimeSlots`, one calendar day per iteration, embedded
structurally with a fuel argument; `dayLoop` below supplies exactly
enough fuel for every day of the range. -/
def dayLoopF (db : DB) (teacherId : String) (now : Int)
    (availabilities : List Availability) (duration slotInterval endDate : Int) :
    Nat → Int → List Slot
  | 0, _ => []
  | fuel + 1, currentDate =>
    if currentDate ≤ endDate then
      slotsForDay db teacherId now availabilities duration slotInterval
        currentDate
      ++ dayLoopF db teacherId now availabilities duration slotInterval endDate
        fuel (currentDate + msPerDay)
    else []

/-- The day loop: every iteration advances `currentDate` by exactly one
day, so the loop runs `⌊(endDate - currentDate) / msPerDay⌋ + 1` times
when it runs at all, and the fuel below is exact. -/
def dayLoop (db : DB) (teacherId : String) (now : Int)
    (availabilities : List Availability) (duration slotInterval : Int)
    (currentDate endDate : Int) : List Slot :=
  dayLoopF db teacherId now availabilities duration slotInterval endDate
    (((endDate - currentDate).fdiv msPerDay).toNat + 1) currentDate

/-- `generateTimeSlots(teacherId, startDate, endDate, duration)`. -/
def generateTimeSlots (db : DB) (now : Int) (teacherId : String)
    (startDate endDate : Int) (duration : Int) : List Slot :=
  let availabilities := db.availabilities.filter
    (fun a => a.userId == teacherId && a.isAvailable)
  if availabilities.isEmpty then []
  else
    let slotInterval := duration + effectiveBuffer db teacherId
    dayLoop db teacherId now availabilities duration slotInterval
      (startOfDay startDate) endDate

/-! ## Calendar exporter: `generateICalendar` -/

structure Person where
  name : String
  email : String
deriving DecidableEq, Repr

/-- The lesson projection `generateICalendar` receives. -/
structure CalLesson where
  id : String
  title : String
  scheduledAt : Int
  duration : Int
  teacher : Person
  student : Person
deriving DecidableEq, Repr

/-- Pad a rendered number to four characters with leading zeros (the
year field of `toISOString`). -/
def padStart4 (s : String) : String :=
  if 4 ≤ s.length then s else ⟨List.replicate (4 - s.length) '0' ++ s.data⟩

/-- Proleptic-Gregorian civil date from days since the Unix epoch
(the calendar computation behind `Date.prototype.toISOString`). -/
def civilFromDays (z0 : Int) : Int × Int × Int :=
  let z := z0 + 719468
  let era := z.fdiv 146097
  let doe := z.emod 146097
  let yoe := (doe - doe / 1460 + doe / 36524 - doe / 146096) / 365
  let y := yoe + era * 400
  let doy := doe - (365 * yoe + yoe / 4 - yoe / 100)
  let mp := (5 * doy + 2) / 153
  let d := doy - (153 * mp + 2) / 5 + 1
  let m := mp + (if mp < 10 then 3 else -9)
  (y + (if m ≤ 2 then 1 else 0), m, d)

/-- The exporter's `formatDate`:
`date.toISOString().replace(/[-:]/g, '').split('.')[0] + 'Z'`, i.e.
`YYYYMMDDTHHmmssZ` in UTC with milliseconds truncated. -/
def formatDate (t : Int) : String :=
  let days := t.fdiv msPerDay
  let msOfDay := t.emod msPerDay
  let ymd := civilFromDays days
  padStart4 (toString ymd.1) ++ pad2Int ymd.2.1 ++ pad2Int ymd.2.2
    ++ "T" ++ pad2Int (msOfDay / msPerHour)
    ++ pad2Int ((msOfDay / msPerMinute) % 60)
    ++ pad2Int ((msOfDay / 1000) % 60) ++ "Z"

/-- The lines pushed for one lesson's VEVENT block (`now` is the
export-time instant read for `DTSTAMP`). -/
def veventLines (now : Int) (lesson : CalLesson) : List String :=
  let start := lesson.scheduledAt
  let «end» := start + lesson.duration * 60000
  [ "BEGIN:VEVENT",
    "UID:" ++ lesson.id ++ "@skillexchange.com",
    "DTSTAMP:" ++ formatDate now,
    "DTSTART:" ++ formatDate start,
    "DTEND:" ++ formatDate «end»,
    "SUMMARY:" ++ lesson.title,
    "DESCRIPTION:Lesson with " ++ lesson.teacher.name,
    "ORGANIZER;CN=" ++ lesson.teacher.name ++ ":mailto:" ++ lesson.teacher.email,
    "ATTENDEE;CN=" ++ lesson.student.name ++ ":mailto:" ++ lesson.student.email,
    "STATUS:CONFIRMED",
    "END:VEVENT" ]

/-- All lines of the calendar document, in order. -/
def icalLines (now : Int) (lessons : List CalLesson) : List String :=
  [ "BEGIN:VCALENDAR", "VERSION:2.0",
    "PRODID:-//Skill Exchange Platform//EN", "CALSCALE:GREGORIAN" ]
  ++ lessons.flatMap (veventLines now)
  ++ ["END:VCALENDAR"]

/-- `generateICalendar(lessons)`: the lines joined with CRLF. -/
def generateICalendar (now : Int) (lessons : List CalLesson) : String :=
  String.intercalate "\r\n" (icalLines now lessons)

/-! ## Concrete store snapshots used by the claim instances -/

/-- Monday 1970-01-05 00:00 UTC in epoch milliseconds
(`getDay monday = 1`). -/
def monday : Int := 345600000

/-- An owner with a PENDING lesson 08:00–09:00 Monday (it straddles the
candidate interval 08:30–09:30), wide weekly availability, no policy. -/
def dbOverlapMiss : DB :=
  { lessons := [⟨"t", monday + 8 * msPerHour, 60, .PENDING⟩],
    blockedTimes := [],
    availabilities := [⟨"t", 1, "06:00", "22:00", true⟩],
    bookingSettings := [] }

/-- An owner with weekly availability on Thursday (epoch day) but no
BookingSettings row. -/
def dbNoPolicy : DB :=
  { lessons := [], blockedTimes := [],
    availabilities := [⟨"t", 4, "01:00", "02:00", true⟩],
    bookingSettings := [] }

/-- An owner whose policy sets `bufferMinutes = 0`, Monday availability
08:00–10:00. -/
def dbZeroBuffer : DB :=
  { lessons := [], blockedTimes := [],
    availabilities := [⟨"t", 1, "08:00", "10:00", true⟩],
    bookingSettings := [⟨"t", 0, 24, 90, [30, 60, 90, 120]⟩] }

/-- An otherwise-available owner with the documented default policy
values stored (buffer 15, 24 h advance, 90 d horizon, durations
{30,60,90,120}) and Monday availability 08:00–18:00. -/
def dbPolicy24 : DB :=
  { lessons := [], blockedTimes := [],
    availabilities := [⟨"t", 1, "08:00", "18:00", true⟩],
    bookingSettings := [⟨"t", 15, 24, 90, [30, 60, 90, 120]⟩] }

/-- Owner whose only Monday slot 08:00–09:00 conflicts with a CONFIRMED
lesson (the existing-booking check fires). -/
def dbLessonConflict : DB :=
  { lessons := [⟨"t", monday + 8 * msPerHour, 60, .CONFIRMED⟩],
    blockedTimes := [],
    availabilities := [⟨"t", 1, "08:00", "09:00", true⟩],
    bookingSettings := [] }

/-- Owner whose only Monday slot 08:00–09:00 falls inside a blocked
range carrying the custom reason "Family event". -/
def dbBlockConflict : DB :=
  { lessons := [],
    blockedTimes := [⟨"t", monday, monday + msPerDay, some "Family event"⟩],
    availabilities := [⟨"t", 1, "08:00", "09:00", true⟩],
    bookingSettings := [] }

/-! ## Helper lemmas -/

theorem isDigit_bounds (c : Char) (h : c.isDigit = true) :
    48 ≤ c.toNat ∧ c.toNat ≤ 57 := by
  simp [Char.isDigit] at h
  exact h

theorem digit_ofNat (c : Char) (h : c.isDigit = true) :
    Char.ofNat (48 + (c.toNat - 48)) = c := by
  obtain ⟨h1, _⟩ := isDigit_bounds c h
  rw [show 48 + (c.toNat - 48) = c.toNat by omega, Char.ofNat_toNat]

theorem digit_ne_colon (c : Char) (h : c.isDigit = true) : ¬ c = ':' := by
  intro e
  subst e
  revert h
  decide

theorem pad2_digits (x y : Nat) (hx : x ≤ 9) (hy : y ≤ 9) :
    (padStart2 (toString (x * 10 + y))).data
      = [Char.ofNat (48 + x), Char.ofNat (48 + y)] := by
  interval_cases x <;> interval_cases y <;> rfl

theorem getHours_le (t : Int) : getHours t ≤ 23 := by
  unfold getHours
  have := Int.emod_lt_of_pos (t.fdiv msPerHour) (show (0 : Int) < 24 by norm_num)
  omega

/-! ## Claim theorems -/

/-- C7: `timeRangesOverlap s1 e1 s2 e2` is true iff `s1 < e2 ∧ s2 < e1`
(half-open semantics), it is symmetric in its two interval arguments,
and the touching intervals `[0,60)` and `[60,120)` do not overlap. -/
theorem timeRangesOverlap_iff_symm_touching :
    ∀ s1 e1 s2 e2 : Int,
      (timeRangesOverlap s1 e1 s2 e2 = true ↔ s1 < e2 ∧ s2 < e1) ∧
      timeRangesOverlap s1 e1 s2 e2 = timeRangesOverlap s2 e2 s1 e1 ∧
      timeRangesOverlap 0 60 60 120 = false := by
  intro s1 e1 s2 e2
  refine ⟨?_, ?_, by decide⟩
  · simp [timeRangesOverlap]
  · unfold timeRangesOverlap
    exact Bool.and_comm _ _

/-- C10: the hour of day is always at most 23, so the upper branch of
`validateBooking`'s business-hours test (`hour > 23`) never fires: the
check's errors reduce to the lower bound alone, and a 23:59 start (here
Monday 1970-01-05 23:59 UTC) has hour 23 and passes the check. -/
theorem hourCheck_upper_branch_unreachable :
    (∀ t : Int, getHours t ≤ 23) ∧
    (∀ t : Int, hourCheckErrors t =
      if getHours t < 6 then ["Please select a time between 6 AM and 11 PM"]
      else []) ∧
    getHours (345600000 + 23 * msPerHour + 59 * msPerMinute) = 23 ∧
    hourCheckErrors (345600000 + 23 * msPerHour + 59 * msPerMinute) = [] := by
  refine ⟨getHours_le, ?_, by decide, by decide⟩
  intro t
  unfold hourCheckErrors
  have h := getHours_le t
  have h23 : ¬ (23 < getHours t) := by omega
  by_cases h6 : getHours t < 6 <;> simp [h6, h23]

/-- C8 counterexample: `"25:99"` does not conform to "HH:MM" (hour 25,
minute 99), yet `timeToMinutes` returns an ordinary number for it — it
does not fail with any error. -/
theorem timeToMinutes_cex_no_error :
    isValidHHMM "25:99" = false ∧ (timeToMinutes "25:99").isSome = true := by
  decide

/-- C8 amended: `timeToMinutes` performs no format validation and has no
error path: a non-conforming string whose colon-separated parts are
numeric (`"25:99"`) returns the ordinary number 1599, while inputs with
a non-numeric or missing part propagate `NaN` (modelled `none`). -/
theorem timeToMinutes_no_validation :
    timeToMinutes "25:99" = some 1599 ∧ isValidHHMM "25:99" = false ∧
    timeToMinutes "banana" = none ∧ timeToMinutes "7" = none := by
  decide

/-- C6: for every well-formed "HH:MM" string (two-digit hour ≤ 23,
two-digit minute ≤ 59), converting to minutes and back yields the same
string. -/
theorem minutesToTime_timeToMinutes_roundtrip :
    ∀ s : String, isValidHHMM s = true →
      (timeToMinutes s).map minutesToTime = some s := by
  intro s hval
  obtain ⟨data⟩ := s
  rcases data with _ | ⟨a, _ | ⟨b, _ | ⟨c, _ | ⟨d, _ | ⟨e, _ | ⟨f, rest⟩⟩⟩⟩⟩⟩ <;>
    try exact Bool.noConfusion hval
  simp only [isValidHHMM, Bool.and_eq_true, decide_eq_true_eq] at hval
  obtain ⟨⟨⟨⟨⟨⟨ha, hb⟩, hc⟩, hd⟩, he⟩, hH⟩, hM⟩ := hval
  subst hc
  have hsplit : splitOnChar ':' [a, b, ':', d, e] = [[a, b], [d, e]] := by
    simp [splitOnChar, digit_ne_colon a ha, digit_ne_colon b hb,
      digit_ne_colon d hd, digit_ne_colon e he]
  have htime : timeToMinutes ⟨[a, b, ':', d, e]⟩
      = some (((a.toNat - 48) * 10 + (b.toNat - 48)) * 60
          + ((d.toNat - 48) * 10 + (e.toNat - 48))) := by
    simp [timeToMinutes, hsplit, jsNumberOfPart, jsNumber, ha, hb, hd, he]
  rw [htime]
  simp only [Option.map_some']
  obtain ⟨_, ha9⟩ := isDigit_bounds a ha
  obtain ⟨_, hb9⟩ := isDigit_bounds b hb
  obtain ⟨_, hd9⟩ := isDigit_bounds d hd
  obtain ⟨_, he9⟩ := isDigit_bounds e he
  have hdiv : (((a.toNat - 48) * 10 + (b.toNat - 48)) * 60
      + ((d.toNat - 48) * 10 + (e.toNat - 48))) / 60
      = (a.toNat - 48) * 10 + (b.toNat - 48) := by omega
  have hmod : (((a.toNat - 48) * 10 + (b.toNat - 48)) * 60
      + ((d.toNat - 48) * 10 + (e.toNat - 48))) % 60
      = (d.toNat - 48) * 10 + (e.toNat - 48) := by omega
  unfold minutesToTime
  rw [hdiv, hmod]
  refine congrArg some (String.ext ?_)
  rw [String.data_append, String.data_append,
    pad2_digits _ _ (by omega) (by omega), pad2_digits _ _ (by omega) (by omega)]
  simp [digit_ofNat a ha, digit_ofNat b hb, digit_ofNat d hd, digit_ofNat e he]

/-- C6 witness: the roundtrip at the concrete valid time "14:30". -/
theorem minutesToTime_timeToMinutes_roundtrip_witness :
    isValidHHMM "14:30" = true ∧
      (timeToMinutes "14:30").map minutesToTime = some "14:30" :=
  ⟨by decide, minutesToTime_timeToMinutes_roundtrip "14:30" (by decide)⟩

/-- C1 (bug evidence): the owner's PENDING lesson 08:00–09:00 overlaps
the candidate 08:30–09:30 under the half-open overlap test, yet
`isTeacherAvailable` reports the candidate available: the existing
booking query only matches lessons whose *start* lies in
`[start, end)`, so a straddling booking is missed. -/
theorem conflict_check_misses_straddling_booking :
    monday + 9 * msPerHour = (monday + 8 * msPerHour) + 60 * msPerMinute ∧
    timeRangesOverlap (monday + 8 * msPerHour) (monday + 9 * msPerHour)
      (monday + 8 * msPerHour + 30 * msPerMinute)
      (monday + 9 * msPerHour + 30 * msPerMinute) = true ∧
    dbOverlapMiss.lessons.map Lesson.status = [.PENDING] ∧
    isTeacherAvailable dbOverlapMiss 0 "t"
      (monday + 8 * msPerHour + 30 * msPerMinute)
      (monday + 9 * msPerHour + 30 * msPerMinute) = ⟨true, none⟩ := by
  decide

/-- C2 amended: when the owner has no BookingSettings row,
`isTeacherAvailable` performs no advance-notice or horizon check at
all — whenever the booking, blocked-time and weekly-availability
queries pass, the result is available, for every `now` and every
candidate interval. -/
theorem noPolicy_skips_advance_checks (db : DB) (now : Int)
    (teacherId : String) (startTime endTime : Int)
    (h1 : db.lessons.find? (fun l =>
      l.teacherId == teacherId &&
      (l.status == .PENDING || l.status == .CONFIRMED) &&
      startTime ≤ l.scheduledAt && l.scheduledAt < endTime) = none)
    (h2 : db.blockedTimes.find? (fun b =>
      b.userId == teacherId && b.startTime ≤ startTime
        && endTime ≤ b.endTime) = none)
    (h3 : (db.availabilities.find? (fun a =>
      a.userId == teacherId && a.dayOfWeek == getDay startTime &&
      a.isAvailable && strLe a.startTime (hhmmOfInstant startTime) &&
      strLe (hhmmOfInstant endTime) a.endTime)).isSome = true)
    (h0 : findUniqueSettings db teacherId = none) :
    isTeacherAvailable db now teacherId startTime endTime = ⟨true, none⟩ := by
  obtain ⟨a, ha⟩ := Option.isSome_iff_exists.mp h3
  simp only [isTeacherAvailable, h1, h2, ha, h0]

/-- C2 witness: the amended theorem applied to `dbNoPolicy` with a
candidate only one hour ahead of `now = 0`. -/
theorem noPolicy_skips_advance_checks_witness :
    findUniqueSettings dbNoPolicy "t" = none ∧
    isTeacherAvailable dbNoPolicy 0 "t" 3600000 5400000 = ⟨true, none⟩ :=
  ⟨by decide, noPolicy_skips_advance_checks dbNoPolicy 0 "t" 3600000 5400000
    (by decide) (by decide) (by decide) (by decide)⟩

/-- C2 counterexample: an owner with no BookingPolicy record and a
candidate starting one hour after `now` (far less than the documented
24-hour default) that passes the other checks is reported *available*:
the default advance-notice policy is not applied. -/
theorem noPolicy_cex_no_default_enforced :
    findUniqueSettings dbNoPolicy "t" = none ∧
    (3600000 : Int) - 0 < 24 * msPerHour ∧
    (isTeacherAvailable dbNoPolicy 0 "t" 3600000 5400000).available = true := by
  decide

/-- C4 amended: `validateBooking` accumulates the errors of all four
checks (valid iff the list is empty), and the past-instant /
duration-45 scenario with allowedDurations {30,60,90,120} yields
*three* errors, because the availability re-check also fails with the
advance-notice reason for a past start. -/
theorem validateBooking_accumulates :
    (∀ (db : DB) (now : Int) (teacherId : String) (startTime duration : Int),
      (validateBooking db now teacherId startTime duration).1
        = (validateBooking db now teacherId startTime duration).2.isEmpty) ∧
    validateBooking dbPolicy24 (monday + 11 * msPerHour) "t"
        (monday + 10 * msPerHour) 45
      = (false, ["Cannot book lessons in the past",
                 "Need at least 24 hours advance notice",
                 "Duration must be one of: 30, 60, 90, 120 minutes"]) := by
  refine ⟨fun db now tid s d => rfl, by decide⟩

/-- C4 counterexample: at a past instant (Monday 10:00, with `now`
Monday 11:00) and duration 45, the error list has the two claimed
messages but length 3, not 2. -/
theorem validateBooking_cex_not_two_errors :
    "Cannot book lessons in the past"
      ∈ (validateBooking dbPolicy24 (monday + 11 * msPerHour) "t"
          (monday + 10 * msPerHour) 45).2 ∧
    "Duration must be one of: 30, 60, 90, 120 minutes"
      ∈ (validateBooking dbPolicy24 (monday + 11 * msPerHour) "t"
          (monday + 10 * msPerHour) 45).2 ∧
    ¬ (validateBooking dbPolicy24 (monday + 11 * msPerHour) "t"
          (monday + 10 * msPerHour) 45).2.length = 2 := by
  decide

/-! ## Generator lemmas -/

theorem daySlotsF_sound (db : DB) (tid : String)
    (now dur itv dayStart em : Int) :
    ∀ (fuel : Nat) (minutes : Int),
      ∀ sl ∈ daySlotsF db tid now dur itv dayStart em fuel minutes,
        sl.endTime = sl.startTime + dur * msPerMinute ∧
        sl.available
          = (isTeacherAvailable db now tid sl.startTime sl.endTime).available := by
  intro fuel
  induction fuel with
  | zero => intro minutes sl h; simp [daySlotsF] at h
  | succ fuel ih =>
    intro minutes sl h
    simp only [daySlotsF] at h
    split at h
    · split at h
      · exact ih _ sl h
      · rcases List.mem_cons.mp h with rfl | h'
        · exact ⟨rfl, rfl⟩
        · exact ih _ sl h'
    · simp at h

theorem daySlotsF_all_skipped (db : DB) (tid : String)
    (now dur itv dayStart em : Int) (hitv : itv ≤ 0) :
    ∀ (fuel : Nat) (minutes : Int),
      dayStart + minutes * msPerMinute < now →
      daySlotsF db tid now dur itv dayStart em fuel minutes = [] := by
  intro fuel
  induction fuel with
  | zero => intro minutes _; rfl
  | succ fuel ih =>
    intro minutes hlt
    have hlt' : dayStart + (minutes + itv) * msPerMinute < now := by
      simp only [msPerMinute] at *
      omega
    simp only [daySlotsF, if_pos hlt, ih _ hlt']
    split <;> rfl

theorem daySlotsF_next_head (db : DB) (tid : String)
    (now dur itv dayStart em : Int) (minutes : Int)
    (hkept : ¬ dayStart + minutes * msPerMinute < now) :
    ∀ (fuel : Nat), ∀ y ∈ (daySlotsF db tid now dur itv dayStart em fuel
        (minutes + itv)).head?,
      y.startTime = dayStart + (minutes + itv) * msPerMinute := by
  intro fuel y hy
  cases fuel with
  | zero => simp [daySlotsF] at hy
  | succ fuel =>
    simp only [daySlotsF] at hy
    split at hy
    · split at hy
      · next hskip =>
        have hitv : itv ≤ 0 := by
          by_contra hpos
          simp only [msPerMinute] at *
          omega
        rw [daySlotsF_all_skipped db tid now dur itv dayStart em hitv fuel _
          (by simp only [msPerMinute] at *; omega)] at hy
        simp at hy
      · simp only [List.head?_cons, Option.mem_def, Option.some.injEq] at hy
        subst hy
        rfl
    · simp at hy

theorem daySlotsF_chain (db : DB) (tid : String)
    (now dur itv dayStart em : Int) :
    ∀ (fuel : Nat) (minutes : Int),
      List.Chain' (fun x y => y.startTime = x.startTime + itv * msPerMinute)
        (daySlotsF db tid now dur itv dayStart em fuel minutes) := by
  intro fuel
  induction fuel with
  | zero => intro minutes; exact List.chain'_nil
  | succ fuel ih =>
    intro minutes
    simp only [daySlotsF]
    split
    · split
      · exact ih (minutes + itv)
      · next hs =>
        refine List.Chain'.cons' (ih (minutes + itv)) ?_
        intro y hy
        rw [daySlotsF_next_head db tid now dur itv dayStart em minutes hs fuel y hy]
        ring
    · exact List.chain'_nil

theorem slotsForDay_sound (db : DB) (tid : String) (now : Int)
    (avails : List Availability) (dur itv cur : Int) :
    ∀ sl ∈ slotsForDay db tid now avails dur itv cur,
      sl.endTime = sl.startTime + dur * msPerMinute ∧
      sl.available
        = (isTeacherAvailable db now tid sl.startTime sl.endTime).available := by
  intro sl h
  unfold slotsForDay at h
  split at h
  · split at h
    · exact daySlotsF_sound db tid now dur itv cur _ _ _ sl h
    · simp at h
  · simp at h

theorem dayLoopF_sound (db : DB) (tid : String) (now : Int)
    (avails : List Availability) (dur itv ed : Int) :
    ∀ (fuel : Nat) (cur : Int),
      ∀ sl ∈ dayLoopF db tid now avails dur itv ed fuel cur,
        sl.endTime = sl.startTime + dur * msPerMinute ∧
        sl.available
          = (isTeacherAvailable db now tid sl.startTime sl.endTime).available := by
  intro fuel
  induction fuel with
  | zero => intro cur sl h; simp [dayLoopF] at h
  | succ fuel ih =>
    intro cur sl h
    simp only [dayLoopF] at h
    split at h
    · rcases List.mem_append.mp h with h' | h'
      · exact slotsForDay_sound db tid now avails dur itv cur sl h'
      · exact ih _ sl h'
    · simp at h

theorem generateTimeSlots_sound (db : DB) (now : Int) (tid : String)
    (sd ed dur : Int) :
    ∀ sl ∈ generateTimeSlots db now tid sd ed dur,
      sl.endTime = sl.startTime + dur * msPerMinute ∧
      sl.available
        = (isTeacherAvailable db now tid sl.startTime sl.endTime).available := by
  intro sl h
  simp only [generateTimeSlots] at h
  split at h
  · simp at h
  · exact dayLoopF_sound db tid now _ dur _ ed _ _ sl h

/-- C3 amended: every slot emitted by `generateTimeSlots` is exactly
`duration` minutes long, and within one day's generation consecutive
slot start times differ by exactly `duration + b` minutes, where `b` is
the effective buffer: the owner's `bufferMinutes` when nonzero, and 15
otherwise — the source's `|| 15` default replaces an explicit stored 0
as well as an absent policy. -/
theorem slot_length_and_spacing :
    (∀ (db : DB) (now : Int) (teacherId : String) (startDate endDate duration : Int),
      (generateTimeSlots db now teacherId startDate endDate duration).all
        (fun sl => sl.endTime == sl.startTime + duration * msPerMinute) = true) ∧
    (∀ (db : DB) (teacherId : String) (now dayStart startMinutes endMinutes duration : Int),
      List.Chain' (fun x y => y.startTime
          = x.startTime + (duration + effectiveBuffer db teacherId) * msPerMinute)
        (daySlots db teacherId now duration (duration + effectiveBuffer db teacherId)
          dayStart startMinutes endMinutes)) := by
  constructor
  · intro db now tid sd ed dur
    rw [List.all_eq_true]
    intro sl h
    exact beq_iff_eq.mpr (generateTimeSlots_sound db now tid sd ed dur sl h).1
  · intro db tid now dayStart sm em dur
    unfold daySlots
    exact daySlotsF_chain db tid now dur _ dayStart em _ sm

/-- C3 counterexample: an owner whose stored policy has
`bufferMinutes = 0` (Monday 08:00–10:00, duration 30) gets slots at
08:00, 08:45, 09:30 — spaced 45 minutes, not the claimed
`duration + bufferMinutes = 30` minutes, because `|| 15` coerces the
stored 0 to 15. -/
theorem zero_buffer_cex :
    (findUniqueSettings dbZeroBuffer "t").map BookingSettings.bufferMinutes
      = some 0 ∧
    (generateTimeSlots dbZeroBuffer 0 "t" monday monday 30).map Slot.startTime
      = [monday + 480 * msPerMinute, monday + 525 * msPerMinute,
         monday + 570 * msPerMinute] ∧
    monday + 525 * msPerMinute - (monday + 480 * msPerMinute)
      ≠ (30 + 0) * msPerMinute := by
  decide

/-- C5 amended: every emitted slot carries its start instant, its end
instant and the conflict checker's `available` boolean for exactly that
interval; the checker's reason string is not part of the emitted
record. -/
theorem slots_carry_checker_verdict :
    ∀ (db : DB) (now : Int) (teacherId : String) (startDate endDate duration : Int),
      (generateTimeSlots db now teacherId startDate endDate duration).all
        (fun sl =>
          sl.available
              == (isTeacherAvailable db now teacherId sl.startTime sl.endTime).available
            && sl.endTime == sl.startTime + duration * msPerMinute) = true := by
  intro db now tid sd ed dur
  rw [List.all_eq_true]
  intro sl h
  obtain ⟨h1, h2⟩ := generateTimeSlots_sound db now tid sd ed dur sl h
  rw [Bool.and_eq_true, beq_iff_eq, beq_iff_eq]
  exact ⟨h2, h1⟩

/-- C5 counterexample: two stores in which the conflict checker reports
*different* reasons for the same unavailable slot (an existing-lesson
conflict vs. a blocked range with custom reason "Family event") produce
*equal* generator outputs — the emitted slots cannot carry the
checker's reason, so the claim that each unavailable slot carries its
`unavailableReason` fails. -/
theorem slots_discard_reason_cex :
    generateTimeSlots dbLessonConflict 0 "t" monday monday 60
      = generateTimeSlots dbBlockConflict 0 "t" monday monday 60 ∧
    (generateTimeSlots dbLessonConflict 0 "t" monday monday 60).map Slot.available
      = [false] ∧
    (isTeacherAvailable dbLessonConflict 0 "t" (monday + 8 * msPerHour)
        (monday + 9 * msPerHour)).reason
      ≠ (isTeacherAvailable dbBlockConflict 0 "t" (monday + 8 * msPerHour)
        (monday + 9 * msPerHour)).reason := by
  decide

/-! ## Calendar exporter lemmas -/

theorem beq_false_of_head (p s t : String) (c : Char)
    (hp : p.data.head? = some c) (ht : ¬ t.data.head? = some c) :
    (p ++ s == t) = false := by
  rw [beq_eq_false_iff_ne]
  intro e
  apply ht
  rw [← e, String.data_append]
  cases hd : p.data with
  | nil => rw [hd] at hp; exact absurd hp (by simp)
  | cons x xs =>
    rw [hd] at hp
    simp only [List.head?_cons, Option.some.injEq] at hp
    subst hp
    simp

/-- C9: exporting a single lesson yields exactly one
`BEGIN:VEVENT`/`END:VEVENT` line pair; the `DTSTART` line carries the
lesson's start instant and the `DTEND` line the instant exactly
`duration` minutes later; and the output is the CRLF-joined line list —
a pure function of the lesson list and the export instant, hence
deterministic for identical input and export timestamp. -/
theorem ical_single_lesson :
    ∀ (l : CalLesson) (now : Int),
      (icalLines now [l]).count "BEGIN:VEVENT" = 1 ∧
      (icalLines now [l]).count "END:VEVENT" = 1 ∧
      "DTSTART:" ++ formatDate l.scheduledAt ∈ icalLines now [l] ∧
      "DTEND:" ++ formatDate (l.scheduledAt + l.duration * 60000)
        ∈ icalLines now [l] ∧
      l.scheduledAt + l.duration * 60000 - l.scheduledAt = l.duration * 60000 ∧
      generateICalendar now [l] = String.intercalate "\r\n" (icalLines now [l]) := by
  intro l now
  have h1 : ("UID:" ++ l.id ++ "@skillexchange.com" == "BEGIN:VEVENT") = false :=
    beq_false_of_head _ _ _ 'U' rfl (by decide)
  have h2 : ("DTSTAMP:" ++ formatDate now == "BEGIN:VEVENT") = false :=
    beq_false_of_head _ _ _ 'D' rfl (by decide)
  have h3 : ("DTSTART:" ++ formatDate l.scheduledAt == "BEGIN:VEVENT") = false :=
    beq_false_of_head _ _ _ 'D' rfl (by decide)
  have h4 : ("DTEND:" ++ formatDate (l.scheduledAt + l.duration * 60000)
      == "BEGIN:VEVENT") = false :=
    beq_false_of_head _ _ _ 'D' rfl (by decide)
  have h5 : ("SUMMARY:" ++ l.title == "BEGIN:VEVENT") = false :=
    beq_false_of_head _ _ _ 'S' rfl (by decide)
  have h6 : ("DESCRIPTION:Lesson with " ++ l.teacher.name == "BEGIN:VEVENT") = false :=
    beq_false_of_head _ _ _ 'D' rfl (by decide)
  have h7 : ("ORGANIZER;CN=" ++ l.teacher.name ++ ":mailto:" ++ l.teacher.email
      == "BEGIN:VEVENT") = false :=
    beq_false_of_head _ _ _ 'O' rfl (by decide)
  have h8 : ("ATTENDEE;CN=" ++ l.student.name ++ ":mailto:" ++ l.student.email
      == "BEGIN:VEVENT") = false :=
    beq_false_of_head _ _ _ 'A' rfl (by decide)
  have g1 : ("UID:" ++ l.id ++ "@skillexchange.com" == "END:VEVENT") = false :=
    beq_false_of_head _ _ _ 'U' rfl (by decide)
  have g2 : ("DTSTAMP:" ++ formatDate now == "END:VEVENT") = false :=
    beq_false_of_head _ _ _ 'D' rfl (by decide)
  have g3 : ("DTSTART:" ++ formatDate l.scheduledAt == "END:VEVENT") = false :=
    beq_false_of_head _ _ _ 'D' rfl (by decide)
  have g4 : ("DTEND:" ++ formatDate (l.scheduledAt + l.duration * 60000)
      == "END:VEVENT") = false :=
    beq_false_of_head _ _ _ 'D' rfl (by decide)
  have g5 : ("SUMMARY:" ++ l.title == "END:VEVENT") = false :=
    beq_false_of_head _ _ _ 'S' rfl (by decide)
  have g6 : ("DESCRIPTION:Lesson with " ++ l.teacher.name == "END:VEVENT") = false :=
    beq_false_of_head _ _ _ 'D' rfl (by decide)
  have g7 : ("ORGANIZER;CN=" ++ l.teacher.name ++ ":mailto:" ++ l.teacher.email
      == "END:VEVENT") = false :=
    beq_false_of_head _ _ _ 'O' rfl (by decide)
  have g8 : ("ATTENDEE;CN=" ++ l.student.name ++ ":mailto:" ++ l.student.email
      == "END:VEVENT") = false :=
    beq_false_of_head _ _ _ 'A' rfl (by decide)
  refine ⟨?_, ?_, ?_, ?_, by ring, rfl⟩
  · simp [icalLines, veventLines, List.count_cons, List.count_append,
      h1, h2, h3, h4, h5, h6, h7, h8]
  · simp [icalLines, veventLines, List.count_cons, List.count_append,
      g1, g2, g3, g4, g5, g6, g7, g8]
  · simp [icalLines, veventLines]
  · simp [icalLines, veventLines]

end SkillSetu
